import Mathlib

/-!
Verification development for the Neural-Illumination repository (a React
three-fiber front-end).  The definitions below are a shallow embedding of the
TypeScript sources:

* `src/App.tsx`            — environment state, `toggleEnvironment`,
                             `handleEnvironmentChange`;
* `src/components/Experience.tsx` — the voice-command effect, the phonetic
                             corrections table, the room-selection chain and
                             the RainforestRoom fern-placement loop;
* `src/components/IcelandRoom.tsx` — randomized iceberg / ice-chunk placement;
* the unnamed source file containing `MoodService.analyzeMood`.

JavaScript strings are modelled as Lean `String` (ASCII fragment: the
transcripts and fixed literals the claims speak about are ASCII).  JavaScript
numbers are modelled as exact rationals `ℚ` (idealized arithmetic), with each
`Math.random()` draw passed in as an explicit parameter in `[0, 1)`, and each
`Math.sin`/`Math.cos` value passed in as an explicit parameter on the unit
circle.  Fallible steps are modelled with `Option`.
-/

/-- The environment union type of `src/App.tsx`
(`'cyber' | 'nature' | 'desert' | 'rainforest' | 'iceland'`). -/
inductive Environment where
  | cyber
  | nature
  | desert
  | rainforest
  | iceland
deriving DecidableEq, Repr

/-- The string literal naming each environment in `src/App.tsx`. -/
def envName : Environment → String
  | .cyber => "cyber"
  | .nature => "nature"
  | .desert => "desert"
  | .rainforest => "rainforest"
  | .iceland => "iceland"

/-- The React state of `AppContent` in `src/App.tsx`: the `environment`
and `isTransitioning` `useState` cells. -/
structure AppState where
  environment : Environment
  isTransitioning : Bool
deriving DecidableEq, Repr

/-- The successor function inside `toggleEnvironment`'s `setEnvironment`
callback in `src/App.tsx` lines 31–37. -/
def nextEnvironment : Environment → Environment
  | .cyber => .nature
  | .nature => .desert
  | .desert => .rainforest
  | .rainforest => .iceland
  | .iceland => .cyber

/-- The synchronous part of `toggleEnvironment` (`src/App.tsx` lines 24–44):
if a transition is in progress it returns immediately, otherwise it sets the
transitioning flag and schedules the deferred environment change.  The `Bool`
component records whether a `setTimeout` transition was scheduled. -/
def toggleEnvironment (s : AppState) : AppState × Bool :=
  if s.isTransitioning then (s, false)
  else ({ s with isTransitioning := true }, true)

/-- The synchronous part of `handleEnvironmentChange` (`src/App.tsx` lines
46–54): a no-op when transitioning or when the requested environment equals
the current one; otherwise it sets the flag and schedules the change. -/
def handleEnvironmentChange (s : AppState) (newEnv : Environment) : AppState × Bool :=
  if s.isTransitioning || s.environment == newEnv then (s, false)
  else ({ s with isTransitioning := true }, true)

/-- A completed toggle: `toggleEnvironment` followed by both of its
`setTimeout` callbacks (which set `environment := nextEnvironment _` and then
clear the transitioning flag).  When a transition is already in progress the
guard fires and nothing is scheduled, so the state is unchanged. -/
def completedToggle (s : AppState) : AppState :=
  if s.isTransitioning then s
  else { environment := nextEnvironment s.environment, isTransitioning := false }

/-- The room components of `src/components/Experience.tsx`. -/
inductive Room where
  | cyberRoom
  | natureRoom
  | desertRoom
  | rainforestRoom
  | icelandRoom
deriving DecidableEq, Repr

/-- The room `Experience` renders for an environment together with the props
shared by every branch of the selection chain (`src/components/Experience.tsx`
lines 231–270): `onPythonError`, `voiceCommandCode` and `hologramData`
(with its setter) are passed identically to all five rooms. -/
structure RenderedRoom (η α : Type) where
  room : Room
  onPythonError : η
  voiceCommandCode : Option String
  hologramData : α

/-- The room-selection ternary chain of `src/components/Experience.tsx`
lines 231–270. -/
def renderRoom {η α : Type} (env : Environment) (handler : η)
    (generatedCode : Option String) (holo : α) : RenderedRoom η α :=
  if env == .cyber then ⟨.cyberRoom, handler, generatedCode, holo⟩
  else if env == .nature then ⟨.natureRoom, handler, generatedCode, holo⟩
  else if env == .desert then ⟨.desertRoom, handler, generatedCode, holo⟩
  else if env == .rainforest then ⟨.rainforestRoom, handler, generatedCode, holo⟩
  else ⟨.icelandRoom, handler, generatedCode, holo⟩

/-- The intended environment-to-room correspondence named in the claim. -/
def roomOf : Environment → Room
  | .cyber => .cyberRoom
  | .nature => .natureRoom
  | .desert => .desertRoom
  | .rainforest => .rainforestRoom
  | .iceland => .icelandRoom

/-- C3: every environment value is one of the five declared names, the
selection chain renders exactly the corresponding room (the correspondence is
injective, so no two environments share a room), and every room receives the
same shared Python-error handler, generated code and hologram state, so
hologram data is preserved across environment switches. -/
theorem room_selection_spec {η α : Type} (handler : η) (g : Option String)
    (holo : α) (e e' : Environment) :
    renderRoom e handler g holo = ⟨roomOf e, handler, g, holo⟩ ∧
    (roomOf e = roomOf e' → e = e') ∧
    envName e ∈ ["cyber", "nature", "desert", "rainforest", "iceland"] ∧
    (renderRoom e handler g holo).hologramData
      = (renderRoom e' handler g holo).hologramData := by
  cases e <;> cases e' <;>
    simp [renderRoom, roomOf, envName]

/-- Witness for C3 at a concrete instantiation. -/
theorem room_selection_spec_witness :
    renderRoom (η := Unit) (α := Nat) .nature () (some "code") 7
      = ⟨.natureRoom, (), some "code", 7⟩ :=
  (room_selection_spec () (some "code") 7 .nature .cyber).1

/-- C8: while a transition is in progress, `toggleEnvironment` and
`handleEnvironmentChange` leave both state cells unchanged and schedule
nothing; and `handleEnvironmentChange` with the current environment is a
complete no-op in any state. -/
theorem transition_guard_spec (s : AppState) (newEnv : Environment)
    (h : s.isTransitioning = true) :
    toggleEnvironment s = (s, false) ∧
    handleEnvironmentChange s newEnv = (s, false) ∧
    (∀ s' : AppState, handleEnvironmentChange s' s'.environment = (s', false)) := by
  refine ⟨?_, ?_, ?_⟩
  · simp [toggleEnvironment, h]
  · simp [handleEnvironmentChange, h]
  · intro s'
    simp [handleEnvironmentChange]

/-- Witness for C8 at a concrete transitioning state. -/
theorem transition_guard_spec_witness :
    toggleEnvironment ⟨.desert, true⟩ = (⟨.desert, true⟩, false) :=
  (transition_guard_spec ⟨.desert, true⟩ .cyber rfl).1

/-- Does the character list `p` occur at the head of `l`?  (Character-level
model of `String.prototype.startsWith` and of matching a literal piece of a
regular expression.) -/
def startsList : List Char → List Char → Bool
  | [], _ => true
  | _ :: _, [] => false
  | p :: ps, c :: cs => p == c && startsList ps cs

/-- JavaScript `String.prototype.startsWith`. -/
def jsStartsWith (s pre : String) : Bool :=
  startsList pre.data s.data

/-- The characters matched by the regex class whitespace in the transcripts at
hand (the ASCII part of JavaScript whitespace: space, tab, line feed, vertical
tab, form feed, carriage return). -/
def jsWhitespaceChar (c : Char) : Bool :=
  c == ' ' || c == '\t' || c == '\n' || c == '\x0b' || c == '\x0c' || c == '\r'

/-- Drop every leading whitespace character. -/
def dropWhitespace : List Char → List Char
  | [] => []
  | c :: rest => if jsWhitespaceChar c then dropWhitespace rest else c :: rest

/-- Greedy match of one-or-more whitespace characters: `none` when the list
does not start with whitespace, otherwise the remainder after all leading
whitespace. -/
def wsPlus : List Char → Option (List Char)
  | [] => none
  | c :: rest => if jsWhitespaceChar c then some (dropWhitespace rest) else none

/-- JavaScript `String.prototype.trim`: remove whitespace from both ends. -/
def jsTrim (s : String) : String :=
  String.mk (dropWhitespace ((dropWhitespace s.data.reverse).reverse))

/-- Lower-casing of an ASCII character, as `String.prototype.toLowerCase`
acts on the ASCII transcripts at hand. -/
def jsCharLower (c : Char) : Char :=
  if 'A' ≤ c && c ≤ 'Z' then Char.ofNat (c.toNat + 32) else c

/-- JavaScript `String.prototype.toLowerCase` (ASCII fragment). -/
def jsToLower (s : String) : String :=
  String.mk (s.data.map jsCharLower)

/-- The alternation `(show|generate|create)` at the start of the command
regex of `src/components/Experience.tsx` line 64: the remainder after the
verb, or `none` when no verb matches here. -/
def matchVerb (l : List Char) : Option (List Char) :=
  if startsList "show".data l then some (l.drop 4)
  else if startsList "generate".data l then some (l.drop 8)
  else if startsList "create".data l then some (l.drop 6)
  else none

/-- A greedy optional group `(w\s+)?`: consume the literal word `w` followed
by one-or-more whitespace when both are present, otherwise consume nothing.
(The groups of the command regex start with non-whitespace letters, so the
greedy linear scan coincides with backtracking regex semantics.) -/
def matchOptionalWord (w : List Char) (l : List Char) : List Char :=
  if startsList w l then
    match wsPlus (l.drop w.length) with
    | some rest => rest
    | none => l
  else l

/-- JavaScript `lowerTranscript.replace(/^(show|generate|create)\s+(me\s+)?(a\s+)?, "")`
from `src/components/Experience.tsx` line 64: the regex is anchored, so at
most the leading command phrase is deleted; when the anchor fails to match
(for instance when no whitespace follows the verb) the string is unchanged. -/
def replaceCommand (s : String) : String :=
  match matchVerb s.data with
  | none => s
  | some rest =>
    match wsPlus rest with
    | none => s
    | some rest2 => String.mk (matchOptionalWord "a".data (matchOptionalWord "me".data rest2))

/-- The phonetic / common-mishearing corrections table of
`src/components/Experience.tsx` lines 67–80, in source order. -/
def corrections : List (String × String) :=
  [("the art", "earth"), ("art", "earth"), ("birth", "earth"), ("girth", "earth"),
   ("hurt", "heart"), ("part", "heart"), ("boxs", "box"), ("spear", "sphere"),
   ("tourist", "torus"), ("taurus", "torus"), ("corn", "cone"), ("not", "knot")]

/-- The property names a plain object literal inherits from
`Object.prototype` (ECMAScript, including the Annex B web accessors):
bracket access on the corrections literal walks the prototype chain, so
these keys find truthy non-string members even though they are not own
entries of the table. -/
def objectProtoProps : List String :=
  ["constructor", "hasOwnProperty", "isPrototypeOf", "propertyIsEnumerable",
   "toLocaleString", "toString", "valueOf", "__defineGetter__",
   "__defineSetter__", "__lookupGetter__", "__lookupSetter__", "__proto__"]

/-- A JavaScript value as the `objectName` variable can hold it after the
corrections access: a string, a non-string member inherited from
`Object.prototype` (recorded by the key that found it), or `undefined`. -/
inductive JsValue where
  | str (s : String)
  | protoMember (key : String)
  | undefined
deriving DecidableEq, Repr

/-- JavaScript truthiness of such a value: a string is truthy iff it is
non-empty; every inherited `Object.prototype` member (a function — or the
prototype object itself for `__proto__`) is truthy; `undefined` is falsy. -/
def JsValue.truthy : JsValue → Bool
  | .str s => !(s == "")
  | .protoMember _ => true
  | .undefined => false

/-- Property lookup `corrections[objectName]` with JavaScript object
semantics: an own entry of the table literal when the name is one of its
twelve keys, otherwise the member inherited from `Object.prototype` when
the name is one of its property names, otherwise `undefined`. -/
def lookupCorrection (name : String) : JsValue :=
  match corrections.lookup name with
  | some v => .str v
  | none =>
    if objectProtoProps.contains name then .protoMember name else .undefined

/-- The conditional rewrite `if (corrections[objectName]) objectName =
corrections[objectName]`: when the access finds a truthy value the variable
is overwritten with it — the corrected string for the table's own (all
non-empty, hence truthy) entries, but a non-string inherited member for the
`Object.prototype` property names — and is left unchanged otherwise. -/
def applyCorrections (name : String) : JsValue :=
  if (lookupCorrection name).truthy then lookupCorrection name
  else .str name

/-- The guard `lowerTranscript.startsWith("show") || … ("generate") || … ("create")`. -/
def startsCommandVerb (lower : String) : Bool :=
  jsStartsWith lower "show" || jsStartsWith lower "generate" || jsStartsWith lower "create"

/-- The argument the voice-command effect passes to `generateHologramCode`
for a transcript: regex deletion of the command phrase from the lowercased
transcript, trim, then the truthiness rewrite through the corrections
object. -/
def commandName (transcript : String) : JsValue :=
  applyCorrections (jsTrim (replaceCommand (jsToLower transcript)))

/-- Modelled from the spec: the voice interaction hook
(`src/hooks/useVoiceInteraction`, not among the sources) exposes a voice
state; the `Experience` effect only distinguishes `'thinking'` and
`'speaking'` from the remaining inactive values. -/
inductive VoiceState where
  | idle
  | listening
  | thinking
  | speaking
deriving DecidableEq, Repr

/-- The guard `voiceState === 'thinking' || voiceState === 'speaking'` of
`src/components/Experience.tsx` line 55. -/
def isVoiceActiveB (v : VoiceState) : Bool :=
  v == .thinking || v == .speaking

/-- A simulation-log entry type as used by `addLog` (`'dialogue'` and
`'action'` are the values this effect produces). -/
inductive LogType where
  | dialogue
  | action
deriving DecidableEq, Repr

/-- An `addLog` record: type, character id, message. -/
structure LogEntry where
  type : LogType
  characterId : String
  message : String
deriving DecidableEq, Repr

/-- The mutable cells of `Experience` the voice-command effect touches:
`prevTranscriptRef`, the `generatedCode` state and the simulation log. -/
structure ExperienceState where
  prevTranscript : String
  generatedCode : Option String
  log : List LogEntry
deriving DecidableEq, Repr

/-- The resolved value of a `generateHologramCode` call
(`src/services/codeGenerator`, external service wrapper): code and
description. -/
structure GenResponse where
  code : String
  description : String
deriving DecidableEq, Repr

/-- The observable trace of one run of the voice-command effect: the updated
state, the arguments of the `generateHologramCode` calls issued, and the
texts passed to `speakText`. -/
structure StepTrace where
  state : ExperienceState
  genCalls : List JsValue
  spoken : List String
deriving Repr

/-- One run of the voice-command effect of `src/components/Experience.tsx`
lines 53–110, with the asynchronous `generateHologramCode` settlement
(`gen name = some response` for a resolution, `none` for a rejection) played
to completion.  The effect: under the activity guard it logs the dialogue
entry and updates `prevTranscriptRef`; when the lowercased transcript starts
with a command verb it derives the object name, calls
`generateHologramCode`, and on resolution stores the returned code, logs the
action entry and speaks the feedback line; on rejection it only logs to the
console. -/
def processTranscript (voiceState : VoiceState) (transcript : String)
    (gen : JsValue → Option GenResponse) (st : ExperienceState) : StepTrace :=
  if isVoiceActiveB voiceState && !(transcript == "") && !(transcript == st.prevTranscript) then
    let st1 : ExperienceState :=
      { st with
        log := st.log ++ [⟨.dialogue, "Atlas", "Voice Command: \"" ++ transcript ++ "\""⟩],
        prevTranscript := transcript }
    let lower := jsToLower transcript
    if startsCommandVerb lower then
      let objectName := applyCorrections (jsTrim (replaceCommand lower))
      match gen objectName with
      | some response =>
        { state :=
            { st1 with
              generatedCode := some response.code,
              log := st1.log ++
                [⟨.action, "Luna", "Initializing Holographic Protocol: " ++ response.description⟩] },
          genCalls := [objectName],
          spoken := ["Activating holographic display."] }
      | none =>
        { state := st1, genCalls := [objectName], spoken := [] }
    else
      { state := st1, genCalls := [], spoken := [] }
  else
    { state := st, genCalls := [], spoken := [] }

/-- A transcript whose lowercasing starts with a command verb is non-empty. -/
theorem ne_empty_of_startsCommandVerb (t : String)
    (h : startsCommandVerb (jsToLower t) = true) : t ≠ "" := by
  intro he
  subst he
  exact absurd h (by decide)

/-- Reduction of the voice-command effect under the activity guard: the
dialogue entry is logged, `prevTranscriptRef` is updated, and
`generateHologramCode` is called once with `commandName t`; the rest depends
on how that call settles. -/
theorem processTranscript_active (vs : VoiceState) (t : String)
    (gen : JsValue → Option GenResponse) (st : ExperienceState)
    (hactive : isVoiceActiveB vs = true)
    (hnew : t ≠ st.prevTranscript)
    (hverb : startsCommandVerb (jsToLower t) = true) :
    processTranscript vs t gen st =
      (match gen (commandName t) with
      | some response =>
        { state :=
            { prevTranscript := t,
              generatedCode := some response.code,
              log := (st.log ++ [⟨.dialogue, "Atlas", "Voice Command: \"" ++ t ++ "\""⟩]) ++
                [⟨.action, "Luna", "Initializing Holographic Protocol: " ++ response.description⟩] },
          genCalls := [commandName t],
          spoken := ["Activating holographic display."] }
      | none =>
        { state :=
            { prevTranscript := t,
              generatedCode := st.generatedCode,
              log := st.log ++ [⟨.dialogue, "Atlas", "Voice Command: \"" ++ t ++ "\""⟩] },
          genCalls := [commandName t],
          spoken := [] }) := by
  have hne : t ≠ "" := ne_empty_of_startsCommandVerb t hverb
  have h1 : (t == "") = false := beq_eq_false_iff_ne.mpr hne
  have h2 : (t == st.prevTranscript) = false := beq_eq_false_iff_ne.mpr hnew
  simp only [processTranscript, hactive, h1, h2, hverb, Bool.not_false, Bool.true_and,
    Bool.and_self, if_true, commandName]

/-- C1 counterexample: for the transcript "show art" (voice state
`thinking`, previous transcript empty), the effect calls
`generateHologramCode` with "earth" — the phonetic correction — and not with
the regex-stripped, trimmed object name "art" the claim describes. -/
theorem voiceCommand_claim_counterexample :
    (processTranscript .thinking "show art"
        (fun _ => some ⟨"CODE", "an earth"⟩) ⟨"", none, []⟩).genCalls
      = [JsValue.str "earth"] ∧
    jsTrim (replaceCommand (jsToLower "show art")) = "art" ∧
    JsValue.str "earth" ≠ JsValue.str "art" := by
  refine ⟨rfl, rfl, by decide⟩

/-- C1 (amended): for every transcript received while the voice state is
`thinking` or `speaking` that differs from the previously processed one and
whose lowercasing starts with "show", "generate" or "create", the effect
calls `generateHologramCode` with the value obtained from the object name —
leading command phrase deleted and trimmed — by the truthiness rewrite
through the corrections object (the table's corrected value on its twelve
own keys, the truthy inherited member on the `Object.prototype` property
names, the unchanged name otherwise); on success the returned code is stored
as the generated code and an action log entry with the response description
is added (after the dialogue entry logging the command). -/
theorem voiceCommand_generates (vs : VoiceState) (t : String)
    (gen : JsValue → Option GenResponse) (st : ExperienceState) (resp : GenResponse)
    (hactive : isVoiceActiveB vs = true)
    (hnew : t ≠ st.prevTranscript)
    (hverb : startsCommandVerb (jsToLower t) = true)
    (hgen : gen (commandName t) = some resp) :
    (processTranscript vs t gen st).genCalls = [commandName t] ∧
    (processTranscript vs t gen st).state.generatedCode = some resp.code ∧
    (processTranscript vs t gen st).state.log
      = st.log ++ [⟨.dialogue, "Atlas", "Voice Command: \"" ++ t ++ "\""⟩,
                   ⟨.action, "Luna", "Initializing Holographic Protocol: " ++ resp.description⟩] := by
  rw [processTranscript_active vs t gen st hactive hnew hverb, hgen]
  refine ⟨rfl, rfl, ?_⟩
  simp

/-- Witness for C1 (amended) at the concrete transcript "show me a sphere". -/
theorem voiceCommand_generates_witness :
    (processTranscript .speaking "show me a sphere"
        (fun _ => some ⟨"mesh(sphere)", "a sphere"⟩) ⟨"", none, []⟩).state.generatedCode
      = some "mesh(sphere)" :=
  (voiceCommand_generates .speaking "show me a sphere"
    (fun _ => some ⟨"mesh(sphere)", "a sphere"⟩) ⟨"", none, []⟩ ⟨"mesh(sphere)", "a sphere"⟩
    rfl (by decide) rfl rfl).2.1

/-- Auxiliary: `List.lookup` misses every key that is not in the list. -/
theorem lookup_none_of_forall_notMem {l : List (String × String)} {a : String}
    (h : ∀ v : String, (a, v) ∉ l) : l.lookup a = none := by
  induction l with
  | nil => rfl
  | cons p rest ih =>
    obtain ⟨k, v⟩ := p
    have hak : a ≠ k := by
      intro he
      exact h v (by simp [he])
    rw [List.lookup, beq_eq_false_iff_ne.mpr hak]
    exact ih (fun v' hv' => h v' (List.mem_cons_of_mem _ hv'))

/-- Auxiliary: on the table's own entries, the correction rewrite returns the
stored string value (every entry is non-empty, hence truthy). -/
theorem applyCorrections_eq_of_mem {name v : String}
    (h : (name, v) ∈ corrections) : applyCorrections name = .str v := by
  fin_cases h <;> rfl

/-- C5 counterexample: "constructor" is not a key of the corrections table,
yet it is not passed through unchanged — bracket access walks the prototype
chain and finds the truthy inherited `Object.prototype.constructor`, and the
truthiness rewrite passes that member, not the string, to
`generateHologramCode`. -/
theorem correction_proto_counterexample :
    corrections.lookup "constructor" = none ∧
    (processTranscript .thinking "show constructor"
        (fun _ => none) ⟨"", none, []⟩).genCalls
      = [JsValue.protoMember "constructor"] ∧
    JsValue.protoMember "constructor" ≠ JsValue.str "constructor" := by
  refine ⟨rfl, rfl, by decide⟩

/-- C5 (amended): for every voice command processed by the effect, with
`name` the regex-stripped, trimmed object name: when `name` is exactly a key
of the phonetic corrections table, the value passed to
`generateHologramCode` is the table's corrected string; when it is not a key
of the table but is one of the property names inherited from
`Object.prototype` ("constructor", "toString", "__proto__", …), the truthy
inherited member is passed in place of the name; any other name is passed
through unchanged. -/
theorem correction_table_spec (vs : VoiceState) (t : String)
    (gen : JsValue → Option GenResponse) (st : ExperienceState) (name : String)
    (hactive : isVoiceActiveB vs = true)
    (hnew : t ≠ st.prevTranscript)
    (hverb : startsCommandVerb (jsToLower t) = true)
    (hname : jsTrim (replaceCommand (jsToLower t)) = name) :
    (∀ v : String, (name, v) ∈ corrections →
        (processTranscript vs t gen st).genCalls = [JsValue.str v]) ∧
    ((∀ v : String, (name, v) ∉ corrections) → name ∈ objectProtoProps →
        (processTranscript vs t gen st).genCalls = [JsValue.protoMember name]) ∧
    ((∀ v : String, (name, v) ∉ corrections) → name ∉ objectProtoProps →
        (processTranscript vs t gen st).genCalls = [JsValue.str name]) := by
  have key : (processTranscript vs t gen st).genCalls = [applyCorrections name] := by
    rw [processTranscript_active vs t gen st hactive hnew hverb]
    unfold commandName
    rw [hname]
    cases gen (applyCorrections name) <;> rfl
  refine ⟨?_, ?_, ?_⟩
  · intro v hv
    rw [key, applyCorrections_eq_of_mem hv]
  · intro hnone hproto
    have hl : corrections.lookup name = none := lookup_none_of_forall_notMem hnone
    rw [key]
    simp [applyCorrections, lookupCorrection, hl, hproto, JsValue.truthy]
  · intro hnone hproto
    have hl : corrections.lookup name = none := lookup_none_of_forall_notMem hnone
    rw [key]
    simp [applyCorrections, lookupCorrection, hl, hproto, JsValue.truthy]

/-- Witness for C5 (amended): "show taurus" reaches `generateHologramCode`
as the corrected string "torus". -/
theorem correction_table_spec_witness :
    (processTranscript .thinking "show taurus"
        (fun _ => none) ⟨"", none, []⟩).genCalls = [JsValue.str "torus"] :=
  (correction_table_spec .thinking "show taurus" (fun _ => none) ⟨"", none, []⟩
      "taurus" rfl (by decide) rfl rfl).1 "torus" (by simp [corrections])

/-- C6: when the `generateHologramCode` call made by the voice-command
pipeline rejects, exactly one call was issued (no retry), the stored
generated code is unchanged, no voice feedback is spoken, and the only log
entry added is the dialogue entry recording the command (no action entry). -/
theorem generation_failure_spec (vs : VoiceState) (t : String)
    (gen : JsValue → Option GenResponse) (st : ExperienceState)
    (hactive : isVoiceActiveB vs = true)
    (hnew : t ≠ st.prevTranscript)
    (hverb : startsCommandVerb (jsToLower t) = true)
    (hfail : gen (commandName t) = none) :
    (processTranscript vs t gen st).genCalls = [commandName t] ∧
    (processTranscript vs t gen st).state.generatedCode = st.generatedCode ∧
    (processTranscript vs t gen st).spoken = [] ∧
    (processTranscript vs t gen st).state.log
      = st.log ++ [⟨.dialogue, "Atlas", "Voice Command: \"" ++ t ++ "\""⟩] := by
  rw [processTranscript_active vs t gen st hactive hnew hverb, hfail]
  exact ⟨rfl, rfl, rfl, rfl⟩

/-- Witness for C6 at the concrete transcript "show dragon" with a rejecting
generator. -/
theorem generation_failure_spec_witness :
    (processTranscript .speaking "show dragon"
        (fun _ => none) ⟨"", some "old", []⟩).state.generatedCode = some "old" :=
  (generation_failure_spec .speaking "show dragon" (fun _ => none)
    ⟨"", some "old", []⟩ rfl (by decide) rfl rfl).2.1

/-- One pass of the global replace
`text.replace(/` followed by three backticks, `json\n?|\n?` and three
backticks, `/g, "")` in `MoodService.analyzeMood`: scan left to right, at
each position try the first alternative (the fence-with-json opener, with a
greedy optional newline) and then the second (a greedy optional newline
followed by a bare fence); delete each match and continue after it. -/
def removeFencesAux : Nat → List Char → List Char
  | 0, l => l
  | _, [] => []
  | fuel + 1, c :: rest =>
    if startsList "```json\n".data (c :: rest) then removeFencesAux fuel (rest.drop 7)
    else if startsList "```json".data (c :: rest) then removeFencesAux fuel (rest.drop 6)
    else if startsList "\n```".data (c :: rest) then removeFencesAux fuel (rest.drop 3)
    else if startsList "```".data (c :: rest) then removeFencesAux fuel (rest.drop 2)
    else c :: removeFencesAux fuel rest

/-- The scan with enough fuel for the whole input (every step consumes at
least one character, so the fuel `l.length` is never exhausted). -/
def removeFences (l : List Char) : List Char :=
  removeFencesAux l.length l

/-- The cleaning `MoodService.analyzeMood` applies to the model's response
text before `JSON.parse`: remove the code fences, then trim. -/
def cleanTextOf (text : String) : String :=
  jsTrim (String.mk (removeFences text.data))

/-- The runtime shape of `JSON.parse(cleanText) as MoodResult` for a parsed
flat JSON object: the cast is unchecked, so each field is whatever string the
object carries at that key, or absent. -/
structure MoodRuntime where
  mood : Option String
  suggestedEnvironment : Option String
  reasoning : Option String
deriving DecidableEq, Repr

/-- Skip the JSON whitespace characters (space, tab, line feed, carriage
return). -/
def skipWsJson : List Char → List Char
  | [] => []
  | c :: rest =>
    if c == ' ' || c == '\t' || c == '\n' || c == '\r' then skipWsJson rest
    else c :: rest

/-- Parse the body of a JSON string literal after its opening quote, up to
the closing quote (escape-free strings, the shapes the prompt requests). -/
def parseStringBody : List Char → Option (List Char × List Char)
  | [] => none
  | c :: rest =>
    if c == '"' then some ([], rest)
    else if c == '\\' then none
    else
      match parseStringBody rest with
      | some (s, rem) => some (c :: s, rem)
      | none => none

/-- Parse one `"key" : "value"` pair. -/
def parsePair (l : List Char) : Option ((String × String) × List Char) :=
  match skipWsJson l with
  | '"' :: rest =>
    match parseStringBody rest with
    | some (k, rem) =>
      (match skipWsJson rem with
      | ':' :: rem2 =>
        (match skipWsJson rem2 with
        | '"' :: rem3 =>
          (match parseStringBody rem3 with
          | some (v, rem4) => some ((String.mk k, String.mk v), rem4)
          | none => none)
        | _ => none)
      | _ => none)
    | none => none
  | _ => none

/-- Parse a comma-separated sequence of pairs (fuelled recursion). -/
def parsePairSeq : Nat → List Char → Option (List (String × String) × List Char)
  | 0, _ => none
  | fuel + 1, l =>
    match parsePair l with
    | none => none
    | some (kv, rem) =>
      match skipWsJson rem with
      | ',' :: rem2 =>
        (match parsePairSeq fuel rem2 with
        | some (kvs, rem3) => some (kv :: kvs, rem3)
        | none => none)
      | rem2 => some ([kv], rem2)

/-- Modelled from the spec: `JSON.parse` (a host builtin, not among the
sources) restricted to the flat string-field objects the mood prompt
requests; other JSON shapes are outside the modelled scope and map to
`none` (a parse failure). -/
def parseFlatObj (s : String) : Option (List (String × String)) :=
  match skipWsJson s.data with
  | c :: rest =>
    if c == '\x7b' then
      match skipWsJson rest with
      | c2 :: rest2 =>
        if c2 == '\x7d' then
          if skipWsJson rest2 == [] then some [] else none
        else
          (match parsePairSeq (rest.length + 1) rest with
          | some (kvs, rem) =>
            (match skipWsJson rem with
            | c3 :: rem3 =>
              if c3 == '\x7d' && skipWsJson rem3 == [] then some kvs else none
            | [] => none)
          | none => none)
      | [] => none
    else none
  | [] => none

/-- JSON object field access: with duplicate keys, the last occurrence wins. -/
def lastField (kvs : List (String × String)) (k : String) : Option String :=
  kvs.reverse.lookup k

/-- `JSON.parse(cleanText) as MoodResult` on the flat string-field objects of
the modelled scope: the unchecked cast keeps whatever strings the object
carries. -/
def parseMoodJson (s : String) : Option MoodRuntime :=
  match parseFlatObj s with
  | some kvs =>
    some { mood := lastField kvs "mood",
           suggestedEnvironment := lastField kvs "suggestedEnvironment",
           reasoning := lastField kvs "reasoning" }
  | none => none

/-- The failure points of `MoodService.analyzeMood`, in source order:
whether `canvas.getContext('2d')` returned a context, whether the frame
capture (`drawImage` / `toDataURL`) succeeded, how the `generateContent`
call settled (`some text` on resolution), and the behaviour of
`JSON.parse … as MoodResult` on the cleaned text (`none` models a throw). -/
structure MoodEnv where
  ctxAvailable : Bool
  drawOk : Bool
  modelResponse : Option String
  parse : String → Option MoodRuntime

/-- `MoodService.analyzeMood` from the unnamed service source: the entire
body sits in a `try`, the `catch` returns `null`, and a missing 2D context
returns `null` directly; on the success path the cleaned response text is
parsed and the cast result returned.  Exceptions are modelled by `Option`,
so the function is total: it never throws. -/
def analyzeMood (env : MoodEnv) : Option MoodRuntime :=
  if env.ctxAvailable then
    if env.drawOk then
      match env.modelResponse with
      | some text => env.parse (cleanTextOf text)
      | none => none
    else none
  else none

/-- C2: `analyzeMood` never throws — it is a total function into
`Option MoodRuntime` — returning `none` (null) whenever the 2D context is
unavailable or the frame capture, the model call or the JSON parse fails,
and on the success path returning exactly the parse of the response text
with the json fences removed and whitespace trimmed. -/
theorem analyzeMood_spec (env : MoodEnv) :
    (analyzeMood env = none ∨ ∃ r : MoodRuntime, analyzeMood env = some r) ∧
    (env.ctxAvailable = false → analyzeMood env = none) ∧
    (env.drawOk = false → analyzeMood env = none) ∧
    (env.modelResponse = none → analyzeMood env = none) ∧
    (∀ text : String, env.ctxAvailable = true → env.drawOk = true →
      env.modelResponse = some text →
      analyzeMood env = env.parse (cleanTextOf text)) := by
  refine ⟨?_, ?_, ?_, ?_, ?_⟩
  · cases h : analyzeMood env with
    | none => exact Or.inl rfl
    | some r => exact Or.inr ⟨r, rfl⟩
  · intro h
    simp [analyzeMood, h]
  · intro h
    simp [analyzeMood, h]
  · intro h
    simp [analyzeMood, h]
  · intro text h1 h2 h3
    simp [analyzeMood, h1, h2, h3]

/-- Witness for C2 at a concrete environment with no 2D context. -/
theorem analyzeMood_spec_witness :
    analyzeMood ⟨false, true, some "x", fun _ => none⟩ = none :=
  (analyzeMood_spec ⟨false, true, some "x", fun _ => none⟩).2.1 rfl

/-- C4 failing input: the fenced model response whose
`suggestedEnvironment` is "space". -/
def badMoodText : String :=
  "```json\n\x7b\"mood\":\"Happy\",\"suggestedEnvironment\":\"space\",\"reasoning\":\"Looks spacey\"\x7d\n```"

/-- C4 (code bug): `analyzeMood` performs no validation of the parsed
object — `JSON.parse(cleanText) as MoodResult` is an unchecked cast — so a
well-formed model response carrying `suggestedEnvironment: "space"` parses
successfully and is returned even though "space" is outside the domain the
`MoodResult` type declares. -/
theorem analyzeMood_unvalidated_environment :
    analyzeMood ⟨true, true, some badMoodText, parseMoodJson⟩
      = some ⟨some "Happy", some "space", some "Looks spacey"⟩ ∧
    ("space" : String) ∉ ["cyber", "nature", "desert", "rainforest", "iceland"] := by
  refine ⟨rfl, by decide⟩

/-- Large-iceberg radial distance in `src/components/IcelandRoom.tsx`
line 37: `const r = 20 + Math.random() * 80`, with the draw `uR ∈ [0,1)`
passed explicitly. -/
def icebergR (uR : ℚ) : ℚ := 20 + uR * 80

/-- Large-iceberg x coordinate: `Math.sin(angle) * r`, with the sine of the
sampled angle passed explicitly. -/
def icebergX (uR sinA : ℚ) : ℚ := sinA * icebergR uR

/-- Large-iceberg z coordinate: `Math.cos(angle) * r`. -/
def icebergZ (uR cosA : ℚ) : ℚ := cosA * icebergR uR

/-- Large-iceberg vertical position in `src/components/IcelandRoom.tsx`
line 43: `(Math.random() - 0.5) * 2`. -/
def icebergY (uY : ℚ) : ℚ := (uY - 0.5) * 2

/-- Small-ice-chunk radial distance in `src/components/IcelandRoom.tsx`
line 67: `const r = 10 + Math.random() * 90`. -/
def chunkR (u : ℚ) : ℚ := 10 + u * 90

/-- Small-ice-chunk x coordinate: `Math.sin(angle) * r`. -/
def chunkX (u sinB : ℚ) : ℚ := sinB * chunkR u

/-- Small-ice-chunk z coordinate: `Math.cos(angle) * r`. -/
def chunkZ (u cosB : ℚ) : ℚ := cosB * chunkR u

/-- Small-ice-chunk vertical position: `dummy.position.set(x, 0, z)`. -/
def chunkY : ℚ := 0

/-- C7 counterexample: `Math.random()` can return `0`, and at that draw the
large-iceberg vertical position is exactly `-1`, not strictly between `-1`
and `1` as the claim states. -/
theorem iceberg_vertical_counterexample :
    (0 : ℚ) ≤ 0 ∧ (0 : ℚ) < 1 ∧ icebergY 0 = -1 ∧ ¬ (-1 < icebergY 0) := by
  norm_num [icebergY]

/-- C7 (amended): every large iceberg sits at horizontal distance from the
origin in `[20, 100)` (its squared horizontal distance equals `r²` with
`20 ≤ r < 100`) and at vertical position in `[-1, 1)` — at least `-1`,
strictly below `1`; every small ice chunk sits at horizontal distance in
`[10, 100)` with vertical position exactly `0`.  The draws are the
`Math.random()` values in `[0, 1)` and `(sinA, cosA)`, `(sinB, cosB)` the
sine/cosine pairs of the sampled angles. -/
theorem iceland_placement_spec (uR uY uC sinA cosA sinB cosB : ℚ)
    (h1 : 0 ≤ uR) (h2 : uR < 1) (h3 : 0 ≤ uY) (h4 : uY < 1)
    (h5 : 0 ≤ uC) (h6 : uC < 1)
    (hA : sinA ^ 2 + cosA ^ 2 = 1) (hB : sinB ^ 2 + cosB ^ 2 = 1) :
    (icebergX uR sinA) ^ 2 + (icebergZ uR cosA) ^ 2 = (icebergR uR) ^ 2 ∧
    20 ≤ icebergR uR ∧ icebergR uR < 100 ∧
    -1 ≤ icebergY uY ∧ icebergY uY < 1 ∧
    (chunkX uC sinB) ^ 2 + (chunkZ uC cosB) ^ 2 = (chunkR uC) ^ 2 ∧
    10 ≤ chunkR uC ∧ chunkR uC < 100 ∧ chunkY = 0 := by
  refine ⟨?_, ?_, ?_, ?_, ?_, ?_, ?_, ?_, rfl⟩
  · calc (icebergX uR sinA) ^ 2 + (icebergZ uR cosA) ^ 2
        = (sinA ^ 2 + cosA ^ 2) * (icebergR uR) ^ 2 := by
          unfold icebergX icebergZ; ring
      _ = (icebergR uR) ^ 2 := by rw [hA]; ring
  · unfold icebergR; nlinarith
  · unfold icebergR; nlinarith
  · unfold icebergY; nlinarith
  · unfold icebergY; nlinarith
  · calc (chunkX uC sinB) ^ 2 + (chunkZ uC cosB) ^ 2
        = (sinB ^ 2 + cosB ^ 2) * (chunkR uC) ^ 2 := by
          unfold chunkX chunkZ; ring
      _ = (chunkR uC) ^ 2 := by rw [hB]; ring
  · unfold chunkR; nlinarith
  · unfold chunkR; nlinarith

/-- Witness for C7 (amended) at concrete draws (`uR = 1/2`, angle with sine
`3/5` and cosine `4/5`, …). -/
theorem iceland_placement_spec_witness :
    (icebergX (1/2) (3/5)) ^ 2 + (icebergZ (1/2) (4/5)) ^ 2 = (icebergR (1/2)) ^ 2 ∧
    20 ≤ icebergR (1/2 : ℚ) ∧ icebergR (1/2 : ℚ) < 100 ∧
    -1 ≤ icebergY (1/4 : ℚ) ∧ icebergY (1/4 : ℚ) < 1 ∧
    (chunkX (1/3) (3/5)) ^ 2 + (chunkZ (1/3) (4/5)) ^ 2 = (chunkR (1/3)) ^ 2 ∧
    10 ≤ chunkR (1/3 : ℚ) ∧ chunkR (1/3 : ℚ) < 100 ∧ chunkY = 0 :=
  iceland_placement_spec (1/2) (1/4) (1/3) (3/5) (4/5) (3/5) (4/5)
    (by norm_num) (by norm_num) (by norm_num) (by norm_num)
    (by norm_num) (by norm_num) (by norm_num) (by norm_num)

/-- One iteration's random draws in the RainforestRoom fern loop
(`src/components/Experience.tsx` source, `RainforestRoom` fern placement):
`sqrtU` stands for `Math.pow(Math.random(), 0.5)` (hence in `[0, 1)` for a
draw in `[0, 1)`), `sinA`/`cosA` for `Math.sin(angle)`/`Math.cos(angle)`,
`uS` for the scale draw and `rotY` for `Math.random() * Math.PI * 2`. -/
structure FernDraw where
  sqrtU : ℚ
  sinA : ℚ
  cosA : ℚ
  uS : ℚ
  rotY : ℚ
deriving DecidableEq, Repr

/-- An entry of the fern instanced mesh's `instanceMatrix`: either the
default identity transform (three.js initialises every instance matrix to
the identity) or the transform the loop writes with `setMatrixAt`. -/
inductive FernMat where
  | identity
  | placed (x y z sx sy sz ry : ℚ)
deriving DecidableEq, Repr

/-- Fern x coordinate: `Math.sin(angle) * r` with
`r = Math.pow(Math.random(), 0.5) * 90`. -/
def fernX (d : FernDraw) : ℚ := d.sinA * (d.sqrtU * 90)

/-- Fern z coordinate: `Math.cos(angle) * r`. -/
def fernZ (d : FernDraw) : ℚ := d.cosA * (d.sqrtU * 90)

/-- One iteration of the fern placement loop: the clear-centre guard
`if (Math.sqrt(x*x + z*z) < 5) continue;` — encoded squared, as
`x*x + z*z < 25`, equivalent for the non-negative radicand — leaves the
instance matrix at its default identity; otherwise the iteration writes the
position `(x, 0, z)`, the scale `(s, s * 0.8, s)` with `s = 1 + uS`, and the
y rotation. -/
def fernInstance (d : FernDraw) : FernMat :=
  if fernX d * fernX d + fernZ d * fernZ d < 25 then FernMat.identity
  else FernMat.placed (fernX d) 0 (fernZ d)
    (1 + d.uS) ((1 + d.uS) * 0.8) (1 + d.uS) d.rotY

/-- The whole loop: iteration `i` reads its own draws and touches only index
`i` of the instance matrix array. -/
def fernMatrices (draws : List FernDraw) : List FernMat :=
  draws.map fernInstance

/-- C10: in the fern placement loop, an index whose sampled position falls
strictly inside radius `5` is skipped and retains the default identity
transform; every index the loop does set holds the sampled transform, whose
horizontal position satisfies `x² + z² ≥ 25`, i.e. horizontal distance at
least `5` from the origin. -/
theorem fern_placement_spec (draws : List FernDraw) (i : Nat) (d : FernDraw)
    (hd : draws.get? i = some d) :
    (fernX d * fernX d + fernZ d * fernZ d < 25 →
      (fernMatrices draws).get? i = some FernMat.identity) ∧
    (¬ fernX d * fernX d + fernZ d * fernZ d < 25 →
      (fernMatrices draws).get? i
        = some (FernMat.placed (fernX d) 0 (fernZ d)
            (1 + d.uS) ((1 + d.uS) * 0.8) (1 + d.uS) d.rotY) ∧
      fernX d * fernX d + fernZ d * fernZ d ≥ 25) := by
  have hmap : (fernMatrices draws).get? i = some (fernInstance d) := by
    simp only [fernMatrices, List.get?_eq_getElem?, List.getElem?_map] at *
    rw [hd]
    rfl
  constructor
  · intro hlt
    rw [hmap]
    simp [fernInstance, hlt]
  · intro hge
    refine ⟨?_, by linarith [not_lt.mp hge]⟩
    rw [hmap]
    simp [fernInstance, hge]

/-- Witness for C10 on a concrete two-draw loop: the first draw falls at the
origin (skipped, identity), shown via the theorem's first branch. -/
theorem fern_placement_spec_witness :
    (fernMatrices [⟨0, 0, 1, 0, 0⟩, ⟨1/2, 3/5, 4/5, 0, 0⟩]).get? 0
      = some FernMat.identity :=
  (fern_placement_spec [⟨0, 0, 1, 0, 0⟩, ⟨1/2, 3/5, 4/5, 0, 0⟩] 0
      ⟨0, 0, 1, 0, 0⟩ rfl).1 (by norm_num [fernX, fernZ])

/-- C9: the environment successor applied by `toggleEnvironment` is a 5-cycle
over the five environments: five completed toggles starting from any
environment pass through all five values with no repetition, in the fixed
order cyber → nature → desert → rainforest → iceland, and return to the
start; a completed toggle from a non-transitioning state applies exactly this
successor. -/
theorem environment_cycle_spec :
    ∀ e : Environment,
      nextEnvironment (nextEnvironment (nextEnvironment (nextEnvironment
        (nextEnvironment e)))) = e ∧
      [e, nextEnvironment e, nextEnvironment (nextEnvironment e),
        nextEnvironment (nextEnvironment (nextEnvironment e)),
        nextEnvironment (nextEnvironment (nextEnvironment (nextEnvironment e)))].Nodup ∧
      Environment.cyber ∈ [e, nextEnvironment e, nextEnvironment (nextEnvironment e),
        nextEnvironment (nextEnvironment (nextEnvironment e)),
        nextEnvironment (nextEnvironment (nextEnvironment (nextEnvironment e)))] ∧
      Environment.nature ∈ [e, nextEnvironment e, nextEnvironment (nextEnvironment e),
        nextEnvironment (nextEnvironment (nextEnvironment e)),
        nextEnvironment (nextEnvironment (nextEnvironment (nextEnvironment e)))] ∧
      Environment.desert ∈ [e, nextEnvironment e, nextEnvironment (nextEnvironment e),
        nextEnvironment (nextEnvironment (nextEnvironment e)),
        nextEnvironment (nextEnvironment (nextEnvironment (nextEnvironment e)))] ∧
      Environment.rainforest ∈ [e, nextEnvironment e, nextEnvironment (nextEnvironment e),
        nextEnvironment (nextEnvironment (nextEnvironment e)),
        nextEnvironment (nextEnvironment (nextEnvironment (nextEnvironment e)))] ∧
      Environment.iceland ∈ [e, nextEnvironment e, nextEnvironment (nextEnvironment e),
        nextEnvironment (nextEnvironment (nextEnvironment e)),
        nextEnvironment (nextEnvironment (nextEnvironment (nextEnvironment e)))] ∧
      (completedToggle { environment := e, isTransitioning := false }).environment
        = nextEnvironment e ∧
      nextEnvironment .cyber = .nature ∧
      nextEnvironment .nature = .desert ∧
      nextEnvironment .desert = .rainforest ∧
      nextEnvironment .rainforest = .iceland ∧
      nextEnvironment .iceland = .cyber := by
  intro e
  cases e <;> decide
